import Mathlib

/- Shallow embedding of src/visualization/viz.py of the abcd_study repository.

Dataframes are modelled column-wise: a `DF` is the ordered list of columns of
the parsed CSV (after the index column has been consumed), each column being
the diagnosis name paired with the list of AUC values of its trial rows.
Python dictionaries are modelled as association lists where key structure
matters (the result of permutation_test) and as total functions with a
default value where only lookup matters (the accumulators of
load_test_auc_data).  Floating-point arithmetic is modelled by exact rational
arithmetic.  Paths are modelled as their lists of components relative to
RESULTS_DIR, and the filesystem as the top-level listing plus a function from
entry names to sub-folder listings. -/

/-- Model of the Python method str.startswith. -/
def strStartsWith (s p : String) : Bool := p.data.isPrefixOf s.data

/-- Model of the Python method str.endswith. -/
def strEndsWith (s p : String) : Bool := p.data.isSuffixOf s.data

/-- A parsed results CSV: ordered columns, each a diagnosis name with the AUC
values of its trial rows. -/
abbrev DF := List (String × List ℚ)

/-- Embedding of read_results_csv: drops the columns named filename and
Method when present, keeping every other column unchanged and in order. -/
def read_results_csv (df : DF) : DF :=
  let df1 := if df.any (fun col => col.1 == ("filename"))
    then df.filter (fun col => !(col.1 == ("filename"))) else df
  if df1.any (fun col => col.1 == ("Method"))
    then df1.filter (fun col => !(col.1 == ("Method"))) else df1

/-- Conjunction of the two filters that results_file_iter applies to each
top-level entry of RESULTS_DIR: is_permuted or is_unpermuted according to the
permuted flag, and is_adjusted or is_unadjusted according to the adjusted
flag (all(f(file) for f in filters) in the source). -/
def topFilters (permuted adjusted : Bool) (afile : String) : Bool :=
  (if permuted then strStartsWith afile ("run_permuted")
    else strStartsWith afile ("run_unpermuted"))
  && (if adjusted then !(strEndsWith afile ("unadjusted"))
    else strEndsWith afile ("unadjusted"))

/-- Embedding of results_file_iter.  The filesystem is abstracted as the
listing of RESULTS_DIR plus a function from top-level entry names to their
sub-folder listings; the generator becomes the list of yielded
(method, path) pairs, a path being its components relative to RESULTS_DIR. -/
def results_file_iter (listing : List String) (sub : String → List String)
    (methods : List String) (segmentation : String)
    (permuted adjusted : Bool) : List (String × List String) :=
  let subfolderPfx := if permuted then ("permuted") else ("unpermuted")
  (listing.filter (topFilters permuted adjusted)).flatMap (fun file =>
    ((sub file).filter (fun s => strStartsWith s subfolderPfx)).flatMap
      (fun sub_folder =>
        methods.map (fun method =>
          (method, [file, sub_folder, method, ("test"),
            ("roc_auc_") ++ segmentation ++ ("_") ++ subfolderPfx
              ++ (".csv")]))))

/-- Helper for pdUnique: keeps the elements not yet seen, in order. -/
def pdUniqueAux (seen : List String) : List String → List String
  | [] => []
  | x :: xs =>
    if x ∈ seen then pdUniqueAux seen xs else x :: pdUniqueAux (x :: seen) xs

/-- Model of pandas Series.unique: the distinct values in order of first
occurrence. -/
def pdUnique (l : List String) : List String := pdUniqueAux [] l

/-- Model of numpy.mean and pandas DataFrame.mean on one column: sum of the
values divided by their number. -/
def npMean (rows : List ℚ) : ℚ := rows.sum / (rows.length : ℚ)

/-- One row of the permuted_aucs dataframe built by load_test_auc_data:
a Method name, a Diagnosis name and a mean_auc value. -/
structure PermRow where
  method : String
  diagnosis : String
  mean_auc : ℚ
  deriving DecidableEq

/-- Accumulation step of the first loop of load_test_auc_data on one file:
for every column of the dataframe, the rows of that column are appended to
the entry of the accumulator at this method and the column's diagnosis
(unpermuted_aucs[method][diagnosis].extend(series.values) in the source). -/
def extendAucs (acc : String → String → List ℚ) (method : String) (df : DF) :
    String → String → List ℚ :=
  df.foldl (fun a col => fun m d =>
    if m == method && d == col.1 then a m d ++ col.2 else a m d) acc

/-- The unpermuted_aucs accumulator of load_test_auc_data after the first
loop: the files yielded by the iterator are processed in order, each through
read_results_csv and extendAucs.  A file is given as the method it was
yielded with, paired with the parsed dataframe its path holds. -/
def unpermuted_aucs_acc (files : List (String × DF)) :
    String → String → List ℚ :=
  files.foldl (fun acc mf => extendAucs acc mf.1 (read_results_csv mf.2))
    (fun _ _ => [])

/-- Embedding of the mean_unpermuted_aucs dictionary of load_test_auc_data:
numpy mean of the accumulated row list of the pair. -/
def mean_unpermuted_aucs (files : List (String × DF)) (m d : String) : ℚ :=
  npMean (unpermuted_aucs_acc files m d)

/-- Embedding of the permuted_aucs dataframe built by the second loop of
load_test_auc_data: for each permuted file in order, each column of its
parsed dataframe contributes one row holding the method, the diagnosis and
the per-column mean of that single file (df.mean() in the source). -/
def permuted_aucs_table (pfiles : List (String × DF)) : List PermRow :=
  pfiles.flatMap (fun mf =>
    (read_results_csv mf.2).map (fun col => ⟨mf.1, col.1, npMean col.2⟩))

/-- Body of the inner loop of permutation_test: the rows matching both the
method and the diagnosis are selected (permuted_aucs.loc in the source) and
the p-value is sum(permuted >= unpermuted_aucs[method][diagnosis]) + 1
divided by len(permuted) + 1, where summing a boolean series counts its true
entries. -/
def pValFor (permuted_aucs : List PermRow)
    (unpermuted_aucs : String → String → ℚ) (method diagnosis : String) : ℚ :=
  let permuted := (permuted_aucs.filter (fun r =>
    r.method == method && r.diagnosis == diagnosis)).map PermRow.mean_auc
  ((permuted.countP
      (fun x => decide (unpermuted_aucs method diagnosis ≤ x)) : ℚ) + 1)
    / ((permuted.length : ℚ) + 1)

/-- Embedding of permutation_test: for every method and every diagnosis
appearing in the table (pandas unique, cross product), the p-value of the
pair is computed by pValFor.  The dict of dicts is an association list of
association lists. -/
def permutation_test (permuted_aucs : List PermRow)
    (unpermuted_aucs : String → String → ℚ) :
    List (String × List (String × ℚ)) :=
  (pdUnique (permuted_aucs.map PermRow.method)).map (fun method =>
    (method,
      (pdUnique (permuted_aucs.map PermRow.diagnosis)).map (fun diagnosis =>
        (diagnosis, pValFor permuted_aucs unpermuted_aucs method diagnosis))))

/-- Lookup in an association list modelling a Python dict. -/
def dictGet {α : Type} (l : List (String × α)) (k : String) : Option α :=
  (l.find? (fun p => p.1 == k)).map Prod.snd

/-- Two-level lookup in a dict of dicts. -/
def dictGet2 {α : Type} (l : List (String × List (String × α)))
    (k1 k2 : String) : Option α :=
  match dictGet l k1 with
  | none => none
  | some inner => dictGet inner k2

/-- The sample multiset P of the spec: the mean_auc values of the rows of the
permuted table whose Method is m and whose Diagnosis is d. -/
def permSample (table : List PermRow) (m d : String) : List ℚ :=
  (table.filter (fun r => r.method == m && r.diagnosis == d)).map
    PermRow.mean_auc

/-- Spec side: all trial rows for the pair (m, d), concatenated across every
source file contributing to the pair. -/
def allRows (files : List (String × DF)) (m d : String) : List ℚ :=
  (files.filter (fun mf => mf.1 == m)).flatMap (fun mf =>
    ((read_results_csv mf.2).filter (fun col => col.1 == d)).flatMap Prod.snd)

/-- Spec side: the unweighted arithmetic mean over all trial rows for the
pair (m, d) concatenated across every contributing source file, each row
weighted equally regardless of its file. -/
def concatMean (files : List (String × DF)) (m d : String) : ℚ :=
  (allRows files m d).sum / ((allRows files m d).length : ℚ)

/-- Concrete permuted-AUC table of the synthetic example of the spec: five
mean_auc samples 0.51, 0.52, 0.53, 0.54, 0.55 for one pair. -/
def exTable : List PermRow :=
  [⟨("lrc"), ("mdd"), 51/100⟩, ⟨("lrc"), ("mdd"), 52/100⟩,
    ⟨("lrc"), ("mdd"), 53/100⟩, ⟨("lrc"), ("mdd"), 54/100⟩,
    ⟨("lrc"), ("mdd"), 55/100⟩]

/-- Concrete unpermuted AUCs of the synthetic example: the true mean AUC is
0.50 for every pair. -/
def exUnperm : String → String → ℚ := fun _ _ => 1/2

/-- Concrete unpermuted AUCs lying above every sample of exTable. -/
def exUnpermHigh : String → String → ℚ := fun _ _ => 1

/-- Concrete permuted input files: two files for the same method and
diagnosis, one whose five trial rows are all 0 and one whose five trial rows
are all 1. -/
def exPermFiles : List (String × DF) :=
  [(("m1"), [(("d1"), [0, 0, 0, 0, 0])]),
    (("m1"), [(("d1"), [1, 1, 1, 1, 1])])]

/-- Concrete parsed CSV with a filename column, a data column and a Method
column. -/
def exDF : DF := [(("filename"), [1]), (("A"), [2]), (("Method"), [3])]

/-- Concrete top-level listing of RESULTS_DIR. -/
def exListing : List String :=
  [("run_permuted_a"), ("run_unpermuted_b"), ("run_permuted_c_unadjusted")]

/-- Concrete sub-folder listing, the same under every top-level entry. -/
def exSub : String → List String :=
  fun _ => [("permuted_0"), ("unpermuted_0"), ("other")]

/-- Concrete methods list. -/
def exMethods : List String := [("lrc")]

/-- Membership in pdUniqueAux: the elements of the input not yet seen. -/
theorem mem_pdUniqueAux (l : List String) :
    ∀ (seen : List String) (a : String),
      a ∈ pdUniqueAux seen l ↔ a ∈ l ∧ a ∉ seen := by
  induction l with
  | nil =>
    intro seen a
    simp [pdUniqueAux]
  | cons x xs ih =>
    intro seen a
    by_cases hx : x ∈ seen
    · simp only [pdUniqueAux, if_pos hx, ih seen a, List.mem_cons]
      constructor
      · rintro ⟨h1, h2⟩
        exact ⟨Or.inr h1, h2⟩
      · rintro ⟨h1 | h1, h2⟩
        · subst h1
          exact absurd hx h2
        · exact ⟨h1, h2⟩
    · simp only [pdUniqueAux, if_neg hx, List.mem_cons, ih (x :: seen) a]
      constructor
      · rintro (rfl | ⟨h1, h2⟩)
        · exact ⟨Or.inl rfl, hx⟩
        · refine ⟨Or.inr h1, ?_⟩
          intro hs
          exact h2 (Or.inr hs)
      · rintro ⟨h1 | h1, h2⟩
        · exact Or.inl h1
        · by_cases hax : a = x
          · exact Or.inl hax
          · refine Or.inr ⟨h1, ?_⟩
            rintro (hs1 | hs1)
            · exact hax hs1
            · exact h2 hs1

/-- Membership in pdUnique is membership in the input. -/
theorem mem_pdUnique (l : List String) (a : String) :
    a ∈ pdUnique l ↔ a ∈ l := by
  rw [pdUnique, mem_pdUniqueAux]
  simp

/-- Lookup by key in a list of key-value pairs built by mapping over keys:
the first hit carries the value of the searched key. -/
theorem find?_map_pair {α : Type} (f : String → α) (l : List String)
    (m : String) (h : m ∈ l) :
    (l.map (fun k => (k, f k))).find? (fun p => p.1 == m) = some (m, f m) := by
  induction l with
  | nil => cases h
  | cons k ks ih =>
    by_cases hk : k = m
    · subst hk
      rw [List.map_cons, List.find?_cons_of_pos _ (by simp)]
    · have hm : m ∈ ks := by
        rcases List.mem_cons.mp h with h1 | h1
        · exact absurd h1.symm hk
        · exact h1
      rw [List.map_cons, List.find?_cons_of_neg _ (by simp [hk])]
      exact ih hm

/-- Looking up any method and diagnosis appearing in the table in the result
of permutation_test yields the p-value computed by pValFor. -/
theorem permutation_test_lookup (table : List PermRow)
    (u : String → String → ℚ) (m d : String)
    (hm : m ∈ table.map PermRow.method)
    (hd : d ∈ table.map PermRow.diagnosis) :
    dictGet2 (permutation_test table u) m d = some (pValFor table u m d) := by
  have hm' : m ∈ pdUnique (table.map PermRow.method) :=
    (mem_pdUnique _ _).mpr hm
  have hd' : d ∈ pdUnique (table.map PermRow.diagnosis) :=
    (mem_pdUnique _ _).mpr hd
  unfold permutation_test dictGet2 dictGet
  rw [find?_map_pair
    (fun method => (pdUnique (table.map PermRow.diagnosis)).map
      (fun diagnosis => (diagnosis, pValFor table u method diagnosis)))
    _ m hm']
  simp only [Option.map_some']
  rw [find?_map_pair (fun diagnosis => pValFor table u m diagnosis) _ d hd']
  simp

/-- The pValFor expression in terms of the sample multiset of the pair. -/
theorem pValFor_eq_permSample (table : List PermRow)
    (u : String → String → ℚ) (m d : String) :
    pValFor table u m d =
      ((((permSample table m d).countP
          (fun x => decide (u m d ≤ x)) : ℕ) : ℚ) + 1)
        / (((permSample table m d).length : ℚ) + 1) := rfl

/-- A count never exceeding the total gives (count + 1)/(total + 1) within
the half-open unit interval. -/
theorem pval_bound (c n : ℕ) (h : c ≤ n) :
    0 < ((c : ℚ) + 1) / ((n : ℚ) + 1) ∧ ((c : ℚ) + 1) / ((n : ℚ) + 1) ≤ 1 := by
  have hn : (0 : ℚ) < (n : ℚ) + 1 := by positivity
  refine ⟨by positivity, ?_⟩
  rw [div_le_one hn]
  have hc : (c : ℚ) ≤ (n : ℚ) := by exact_mod_cast h
  linarith

/-- Every value produced by pValFor lies in (0, 1]. -/
theorem pValFor_bound (table : List PermRow) (u : String → String → ℚ)
    (m d : String) : 0 < pValFor table u m d ∧ pValFor table u m d ≤ 1 := by
  rw [pValFor_eq_permSample]
  exact pval_bound _ _ (List.countP_le_length _)

/-- Claim C1: for every method m and diagnosis d appearing in the
permuted-AUC table, permutation_test returns for (m, d) exactly
(|{x in P : x >= u}| + 1) / (|P| + 1), where P is the multiset of mean_auc
values of the rows whose Method is m and Diagnosis is d, and u is the
unpermuted AUC of the pair. -/
theorem C1_p_value_formula (table : List PermRow)
    (u : String → String → ℚ) (m d : String)
    (hm : m ∈ table.map PermRow.method)
    (hd : d ∈ table.map PermRow.diagnosis) :
    dictGet2 (permutation_test table u) m d =
      some (((((permSample table m d).countP
          (fun x => decide (u m d ≤ x)) : ℕ) : ℚ) + 1)
        / (((permSample table m d).length : ℚ) + 1)) := by
  rw [permutation_test_lookup table u m d hm hd, pValFor_eq_permSample]

/-- Witness for C1 at the concrete five-row table. -/
theorem C1_p_value_formula_witness :
    dictGet2 (permutation_test exTable exUnperm) ("lrc") ("mdd") =
      some (((((permSample exTable ("lrc") ("mdd")).countP
          (fun x => decide (exUnperm ("lrc") ("mdd") ≤ x)) : ℕ) : ℚ) + 1)
        / (((permSample exTable ("lrc") ("mdd")).length : ℚ) + 1)) :=
  C1_p_value_formula exTable exUnperm ("lrc") ("mdd") (by decide) (by decide)

/-- Claim C2: every p-value in the dict of dicts returned by
permutation_test, on any input, is strictly greater than 0 and at most 1. -/
theorem C2_p_value_in_unit_interval (table : List PermRow)
    (u : String → String → ℚ) (m : String) (inner : List (String × ℚ))
    (d : String) (p : ℚ) (h1 : (m, inner) ∈ permutation_test table u)
    (h2 : (d, p) ∈ inner) : 0 < p ∧ p ≤ 1 := by
  rcases List.mem_map.mp h1 with ⟨m0, _, hpair⟩
  have hinner : inner = (pdUnique (table.map PermRow.diagnosis)).map
      (fun diagnosis => (diagnosis, pValFor table u m0 diagnosis)) := by
    have h3 := congrArg Prod.snd hpair
    simpa using h3.symm
  rw [hinner] at h2
  rcases List.mem_map.mp h2 with ⟨d0, _, hp⟩
  have hpv : p = pValFor table u m0 d0 := by
    have h4 := congrArg Prod.snd hp
    simpa using h4.symm
  rw [hpv]
  exact pValFor_bound table u m0 d0

/-- Witness for C2 at the concrete five-row table. -/
theorem C2_p_value_in_unit_interval_witness :
    0 < pValFor exTable exUnperm ("lrc") ("mdd") ∧
      pValFor exTable exUnperm ("lrc") ("mdd") ≤ 1 :=
  C2_p_value_in_unit_interval exTable exUnperm ("lrc")
    ((pdUnique (exTable.map PermRow.diagnosis)).map
      (fun diagnosis => (diagnosis, pValFor exTable exUnperm ("lrc") diagnosis)))
    ("mdd") (pValFor exTable exUnperm ("lrc") ("mdd"))
    (by simp [permutation_test, pdUnique, pdUniqueAux, exTable])
    (by simp [pdUnique, pdUniqueAux, exTable])

/-- Claim C3: if every permuted mean AUC in the sample P of the pair is
strictly below the unpermuted AUC u, permutation_test returns exactly
1/(|P| + 1) for the pair, a value that is never 0. -/
theorem C3_all_below_gives_minimum (table : List PermRow)
    (u : String → String → ℚ) (m d : String)
    (hm : m ∈ table.map PermRow.method)
    (hd : d ∈ table.map PermRow.diagnosis)
    (hall : ∀ x ∈ permSample table m d, x < u m d) :
    dictGet2 (permutation_test table u) m d =
      some (1 / (((permSample table m d).length : ℚ) + 1)) ∧
    (1 : ℚ) / (((permSample table m d).length : ℚ) + 1) ≠ 0 := by
  have hcount : (permSample table m d).countP
      (fun x => decide (u m d ≤ x)) = 0 := by
    rw [List.countP_eq_zero]
    intro x hx
    simp only [decide_eq_true_eq]
    exact not_le.mpr (hall x hx)
  have h := permutation_test_lookup table u m d hm hd
  rw [pValFor_eq_permSample, hcount] at h
  constructor
  · rw [h]
    norm_num
  · have hpos : (0 : ℚ) < ((permSample table m d).length : ℚ) + 1 := by
      positivity
    exact one_div_ne_zero (ne_of_gt hpos)

/-- Witness for C3: every sample of exTable lies below the constant 1. -/
theorem C3_all_below_gives_minimum_witness :
    (dictGet2 (permutation_test exTable exUnpermHigh) ("lrc") ("mdd") =
      some (1 / (((permSample exTable ("lrc") ("mdd")).length : ℚ) + 1))) ∧
    (1 : ℚ) / (((permSample exTable ("lrc") ("mdd")).length : ℚ) + 1) ≠ 0 :=
  C3_all_below_gives_minimum exTable exUnpermHigh ("lrc") ("mdd")
    (by decide) (by decide)
    (by
      intro x hx
      have h : permSample exTable ("lrc") ("mdd") =
          [51/100, 52/100, 53/100, 54/100, 55/100] := rfl
      rw [h] at hx
      simp only [List.mem_cons, List.not_mem_nil, or_false] at hx
      rcases hx with rfl | rfl | rfl | rfl | rfl <;> norm_num [exUnpermHigh])

/-- Claim C4: if every permuted mean AUC in the sample P of the pair is at
least the unpermuted AUC u, permutation_test returns exactly 1 for the
pair. -/
theorem C4_all_at_least_gives_one (table : List PermRow)
    (u : String → String → ℚ) (m d : String)
    (hm : m ∈ table.map PermRow.method)
    (hd : d ∈ table.map PermRow.diagnosis)
    (hall : ∀ x ∈ permSample table m d, u m d ≤ x) :
    dictGet2 (permutation_test table u) m d = some 1 := by
  have hcount : (permSample table m d).countP
      (fun x => decide (u m d ≤ x)) = (permSample table m d).length := by
    rw [List.countP_eq_length]
    intro x hx
    simp only [decide_eq_true_eq]
    exact hall x hx
  have h := permutation_test_lookup table u m d hm hd
  rw [pValFor_eq_permSample, hcount] at h
  rw [h]
  have hpos : (0 : ℚ) < ((permSample table m d).length : ℚ) + 1 := by
    positivity
  rw [div_self (ne_of_gt hpos)]

/-- Witness for C4: every sample of exTable is at least the constant 1/2. -/
theorem C4_all_at_least_gives_one_witness :
    dictGet2 (permutation_test exTable exUnperm) ("lrc") ("mdd") = some 1 :=
  C4_all_at_least_gives_one exTable exUnperm ("lrc") ("mdd")
    (by decide) (by decide)
    (by
      intro x hx
      have h : permSample exTable ("lrc") ("mdd") =
          [51/100, 52/100, 53/100, 54/100, 55/100] := rfl
      rw [h] at hx
      simp only [List.mem_cons, List.not_mem_nil, or_false] at hx
      rcases hx with rfl | rfl | rfl | rfl | rfl <;> norm_num [exUnperm])

/-- Counterexample to claim C6: on the synthetic input with permuted samples
0.51, 0.52, 0.53, 0.54, 0.55 and true mean AUC 0.50, permutation_test does
not return (0 + 1)/(5 + 1) = 1/6: all five samples are at least 0.50, so the
count in the numerator is 5, not 0. -/
theorem C6_counterexample :
    ¬ dictGet2 (permutation_test exTable exUnperm) ("lrc") ("mdd") =
      some (((0 : ℚ) + 1) / ((5 : ℚ) + 1)) := by
  intro hclaim
  have h : dictGet2 (permutation_test exTable exUnperm) ("lrc") ("mdd") =
      some (pValFor exTable exUnperm ("lrc") ("mdd")) :=
    permutation_test_lookup exTable exUnperm ("lrc") ("mdd")
      (by decide) (by decide)
  have hval : pValFor exTable exUnperm ("lrc") ("mdd") = 1 := by
    have hev : pValFor exTable exUnperm ("lrc") ("mdd") =
        ((((5 : ℕ) : ℚ)) + 1) / (((5 : ℕ) : ℚ) + 1) := by
      rw [pValFor_eq_permSample]
      norm_num [permSample, exTable, exUnperm, List.countP_cons]
    rw [hev]
    norm_num
  rw [h, hval] at hclaim
  have h16 : ((0 : ℚ) + 1) / ((5 : ℚ) + 1) = 1/6 := by norm_num
  rw [h16] at hclaim
  have : (1 : ℚ) = 1/6 := Option.some.inj hclaim
  norm_num at this

/-- Claim C6 (amended): on the synthetic input with permuted samples 0.51,
0.52, 0.53, 0.54, 0.55 and true mean AUC 0.50, every sample is at least the
true AUC, so permutation_test returns exactly (5 + 1)/(5 + 1) = 1 for the
pair. -/
theorem C6_amended_value :
    dictGet2 (permutation_test exTable exUnperm) ("lrc") ("mdd") =
      some 1 := by
  have h : dictGet2 (permutation_test exTable exUnperm) ("lrc") ("mdd") =
      some (pValFor exTable exUnperm ("lrc") ("mdd")) :=
    permutation_test_lookup exTable exUnperm ("lrc") ("mdd")
      (by decide) (by decide)
  rw [h]
  have hev : pValFor exTable exUnperm ("lrc") ("mdd") =
      ((((5 : ℕ) : ℚ)) + 1) / (((5 : ℕ) : ℚ) + 1) := by
    rw [pValFor_eq_permSample]
    norm_num [permSample, exTable, exUnperm, List.countP_cons]
  rw [hev]
  norm_num

/-- Claim C9: permutation_test is deterministic: two calls with equal inputs
return equal p-value dictionaries. -/
theorem C9_deterministic (t1 t2 : List PermRow)
    (u1 u2 : String → String → ℚ) (ht : t1 = t2) (hu : u1 = u2) :
    permutation_test t1 u1 = permutation_test t2 u2 := by
  rw [ht, hu]

/-- Witness for C9 at the concrete five-row table. -/
theorem C9_deterministic_witness :
    permutation_test exTable exUnperm = permutation_test exTable exUnperm :=
  C9_deterministic exTable exTable exUnperm exUnperm rfl rfl

/-- Extending the accumulator with one dataframe appends, at the processed
method and each diagnosis, exactly the concatenated rows of the matching
columns of that dataframe. -/
theorem extendAucs_apply (method m d : String) :
    ∀ (df : DF) (acc : String → String → List ℚ),
      extendAucs acc method df m d =
        acc m d ++ (if m = method
          then (df.filter (fun col => col.1 == d)).flatMap Prod.snd
          else []) := by
  intro df
  induction df with
  | nil =>
    intro acc
    simp [extendAucs]
  | cons col cols ih =>
    intro acc
    have hstep : extendAucs acc method (col :: cols) =
        extendAucs (fun m d => if m == method && d == col.1
          then acc m d ++ col.2 else acc m d) method cols := rfl
    rw [hstep, ih]
    by_cases hm : m = method
    · by_cases hd : d = col.1
      · have hc : (col.1 == d) = true := beq_iff_eq.mpr hd.symm
        simp [hm, hd, hc, List.filter_cons, List.append_assoc]
      · have hc : (col.1 == d) = false :=
          beq_eq_false_iff_ne.mpr (fun h => hd h.symm)
        have hdc : (d == col.1) = false := beq_eq_false_iff_ne.mpr hd
        simp [hm, hc, hdc, List.filter_cons]
    · have hmb : (m == method) = false := beq_eq_false_iff_ne.mpr hm
      simp [hm, hmb]

/-- The fold of the first loop of load_test_auc_data over any starting
accumulator appends exactly the rows of the pair concatenated across the
files. -/
theorem foldl_extendAucs_eq_allRows (m d : String) :
    ∀ (files : List (String × DF)) (acc : String → String → List ℚ),
      (files.foldl (fun acc mf => extendAucs acc mf.1 (read_results_csv mf.2))
        acc) m d = acc m d ++ allRows files m d := by
  intro files
  induction files with
  | nil =>
    intro acc
    simp [allRows]
  | cons mf rest ih =>
    intro acc
    rw [List.foldl_cons, ih, extendAucs_apply]
    by_cases hm : m = mf.1
    · have hmb : (mf.1 == m) = true := beq_iff_eq.mpr hm.symm
      simp [allRows, List.filter_cons, hmb, hm, List.append_assoc]
    · have hmb : (mf.1 == m) = false :=
        beq_eq_false_iff_ne.mpr (fun h => hm h.symm)
      simp [allRows, List.filter_cons, hmb, hm]

/-- The unpermuted mean of load_test_auc_data is the unweighted arithmetic
mean over all trial rows concatenated across every contributing file. -/
theorem mean_unpermuted_eq_concatMean (files : List (String × DF))
    (m d : String) : mean_unpermuted_aucs files m d = concatMean files m d := by
  unfold mean_unpermuted_aucs unpermuted_aucs_acc concatMean npMean
  rw [foldl_extendAucs_eq_allRows]
  simp

/-- Each permuted mean_auc sample comes from a single file: it is the
unweighted arithmetic mean of the trial rows of one column of one file. -/
theorem permuted_sample_from_single_file (pfiles : List (String × DF))
    (r : PermRow) (hr : r ∈ permuted_aucs_table pfiles) :
    ∃ mf ∈ pfiles, ∃ col ∈ read_results_csv mf.2,
      mf.1 = r.method ∧ col.1 = r.diagnosis ∧
      r.mean_auc = col.2.sum / ((col.2.length : ℚ)) := by
  rcases List.mem_flatMap.mp hr with ⟨mf, hmf, hr2⟩
  rcases List.mem_map.mp hr2 with ⟨col, hcol, hr3⟩
  subst hr3
  exact ⟨mf, hmf, col, hcol, rfl, rfl, rfl⟩

/-- Counterexample to claim C5: with two permuted files for the same pair,
one whose rows are all 0 and one whose rows are all 1, the permuted mean_auc
samples are 0 and 1, while the unweighted mean over all rows concatenated
across both files is 1/2; so not every permuted sample is the concatenated
mean. -/
theorem C5_counterexample :
    ¬ (∀ x ∈ permSample (permuted_aucs_table exPermFiles) ("m1") ("d1"),
        x = concatMean exPermFiles ("m1") ("d1")) := by
  intro hall
  have h0 : (0 : ℚ) ∈ permSample (permuted_aucs_table exPermFiles)
      ("m1") ("d1") := by
    have h : permSample (permuted_aucs_table exPermFiles) ("m1") ("d1") =
        [npMean [0, 0, 0, 0, 0], npMean [1, 1, 1, 1, 1]] := rfl
    rw [h]
    have h0m : npMean [0, 0, 0, 0, 0] = 0 := by norm_num [npMean]
    rw [h0m]
    exact List.mem_cons_self _ _
  have hcm : concatMean exPermFiles ("m1") ("d1") = 1/2 := by
    have h : allRows exPermFiles ("m1") ("d1") =
        [0, 0, 0, 0, 0, 1, 1, 1, 1, 1] := rfl
    rw [concatMean, h]
    norm_num
  have := hall 0 h0
  rw [hcm] at this
  norm_num at this

/-- Claim C5 (amended): the unpermuted mean of load_test_auc_data for each
pair is the unweighted arithmetic mean over all trial rows concatenated
across every contributing source file, each row weighted equally regardless
of its file; each permuted mean_auc sample, by contrast, is the unweighted
arithmetic mean of the trial rows of the single source file and column it
comes from, one sample per file and column, not pooled across files. -/
theorem C5_amended_means (files pfiles : List (String × DF)) (m d : String)
    (r : PermRow) (hr : r ∈ permuted_aucs_table pfiles) :
    mean_unpermuted_aucs files m d = concatMean files m d ∧
    ∃ mf ∈ pfiles, ∃ col ∈ read_results_csv mf.2,
      mf.1 = r.method ∧ col.1 = r.diagnosis ∧
      r.mean_auc = col.2.sum / ((col.2.length : ℚ)) :=
  ⟨mean_unpermuted_eq_concatMean files m d,
    permuted_sample_from_single_file pfiles r hr⟩

/-- Witness for the amended C5 at the concrete two-file input. -/
theorem C5_amended_means_witness :
    mean_unpermuted_aucs exPermFiles ("m1") ("d1") =
      concatMean exPermFiles ("m1") ("d1") ∧
    ∃ mf ∈ exPermFiles, ∃ col ∈ read_results_csv mf.2,
      mf.1 = PermRow.method ⟨("m1"), ("d1"), npMean [0, 0, 0, 0, 0]⟩ ∧
      col.1 = PermRow.diagnosis ⟨("m1"), ("d1"), npMean [0, 0, 0, 0, 0]⟩ ∧
      PermRow.mean_auc ⟨("m1"), ("d1"), npMean [0, 0, 0, 0, 0]⟩ =
        col.2.sum / ((col.2.length : ℚ)) :=
  C5_amended_means exPermFiles exPermFiles ("m1") ("d1")
    ⟨("m1"), ("d1"), npMean [0, 0, 0, 0, 0]⟩
    (List.mem_cons_self _ _)

/-- Two prefixes of one list are comparable: the shorter is a prefix of the
longer. -/
theorem isPrefixOf_of_both {l1 l2 l : List Char}
    (h1 : l1.isPrefixOf l = true) (h2 : l2.isPrefixOf l = true)
    (hlen : l1.length ≤ l2.length) : l1.isPrefixOf l2 = true := by
  induction l1 generalizing l2 l with
  | nil => simp [List.isPrefixOf]
  | cons a as ih =>
    cases l with
    | nil => simp [List.isPrefixOf] at h1
    | cons c cs =>
      cases l2 with
      | nil => simp at hlen
      | cons b bs =>
        simp only [List.isPrefixOf, Bool.and_eq_true, beq_iff_eq] at h1 h2 ⊢
        simp only [List.length_cons, Nat.add_le_add_iff_right] at hlen
        exact ⟨h1.1.trans h2.1.symm, ih h1.2 h2.2 hlen⟩

/-- No entry name can start with run_permuted and with run_unpermuted at
once. -/
theorem startsWith_permuted_exclusive (s : String)
    (h1 : strStartsWith s ("run_permuted") = true)
    (h2 : strStartsWith s ("run_unpermuted") = true) : False := by
  have h3 : ("run_permuted").data.isPrefixOf ("run_unpermuted").data = true :=
    isPrefixOf_of_both h1 h2 (by decide)
  exact absurd h3 (by decide)

/-- Claim C7: every path yielded by results_file_iter comes from a top-level
entry of the listing whose name starts with run_permuted when permuted is
true and with run_unpermuted when permuted is false, and ends with
unadjusted exactly when adjusted is false; consequently no top-level entry
passes the filters both for permuted true and permuted false, nor both for
adjusted true and adjusted false. -/
theorem C7_top_level_filters (listing : List String)
    (sub : String → List String) (methods : List String)
    (segmentation : String) (permuted adjusted : Bool)
    (method : String) (path : List String)
    (h : (method, path) ∈
      results_file_iter listing sub methods segmentation permuted adjusted) :
    (∃ e ∈ listing,
      path.head? = some e ∧
      strStartsWith e
        (if permuted then ("run_permuted") else ("run_unpermuted")) = true ∧
      strEndsWith e ("unadjusted") = !adjusted) ∧
    (∀ e : String, ∀ a1 a2 : Bool,
      ¬(topFilters true a1 e = true ∧ topFilters false a2 e = true)) ∧
    (∀ e : String, ∀ p1 p2 : Bool,
      ¬(topFilters p1 true e = true ∧ topFilters p2 false e = true)) := by
  refine ⟨?_, ?_, ?_⟩
  · simp only [results_file_iter, List.mem_flatMap, List.mem_filter,
      List.mem_map] at h
    rcases h with ⟨file, ⟨hfl, hft⟩, sub_folder, hsf, method0, hmem, heq⟩
    have hpath : path = [file, sub_folder, method0, ("test"),
        ("roc_auc_") ++ segmentation ++ ("_")
          ++ (if permuted then ("permuted") else ("unpermuted"))
          ++ (".csv")] := by
      have := congrArg Prod.snd heq
      simpa using this.symm
    simp only [topFilters, Bool.and_eq_true] at hft
    refine ⟨file, hfl, by rw [hpath]; rfl, ?_, ?_⟩
    · cases permuted <;> simpa using hft.1
    · have hf2 := hft.2
      cases adjusted
      · simpa using hf2
      · simp only [if_pos, Bool.not_eq_true'] at hf2
        simpa using hf2
  · rintro e a1 a2 ⟨h1, h2⟩
    simp only [topFilters, Bool.and_eq_true, if_pos, if_neg] at h1 h2
    exact startsWith_permuted_exclusive e (by simpa using h1.1)
      (by simpa using h2.1)
  · rintro e p1 p2 ⟨h1, h2⟩
    simp only [topFilters, Bool.and_eq_true] at h1 h2
    have h1a : strEndsWith e ("unadjusted") = false := by
      have := h1.2
      simpa using this
    have h2a : strEndsWith e ("unadjusted") = true := by
      have := h2.2
      simpa using this
    rw [h2a] at h1a
    cases h1a

/-- Witness for C7 at a concrete listing with permuted and adjusted both
true. -/
theorem C7_top_level_filters_witness :
    (∃ e ∈ exListing,
      ([("run_permuted_a"), ("permuted_0"), ("lrc"), ("test"),
        ("roc_auc_freesurfer_permuted.csv")] : List String).head? = some e ∧
      strStartsWith e
        (if true then ("run_permuted") else ("run_unpermuted")) = true ∧
      strEndsWith e ("unadjusted") = !true) ∧
    (∀ e : String, ∀ a1 a2 : Bool,
      ¬(topFilters true a1 e = true ∧ topFilters false a2 e = true)) ∧
    (∀ e : String, ∀ p1 p2 : Bool,
      ¬(topFilters p1 true e = true ∧ topFilters p2 false e = true)) :=
  C7_top_level_filters exListing exSub exMethods ("freesurfer") true true
    ("lrc")
    [("run_permuted_a"), ("permuted_0"), ("lrc"), ("test"),
      ("roc_auc_freesurfer_permuted.csv")]
    (by decide)

/-- Dropping matching columns when any are present equals unconditionally
filtering them out. -/
theorem dropIf_eq_filter {α : Type} (p : α → Bool) (l : List α) :
    (if l.any p then l.filter (fun x => !(p x)) else l) =
      l.filter (fun x => !(p x)) := by
  by_cases h : l.any p = true
  · rw [if_pos h]
  · rw [if_neg h]
    symm
    rw [List.filter_eq_self]
    intro a ha
    have h0 : l.any p = false := Bool.not_eq_true _ ▸ h
    have h1 := (List.any_eq_false.mp h0) a ha
    simp only [Bool.not_eq_true']
    exact Bool.not_eq_true _ ▸ h1

/-- read_results_csv keeps exactly the columns named neither filename nor
Method, unchanged and in their original order. -/
theorem read_results_csv_eq_filter (df : DF) :
    read_results_csv df = df.filter
      (fun col => !(col.1 == ("filename")) && !(col.1 == ("Method"))) := by
  unfold read_results_csv
  rw [dropIf_eq_filter, dropIf_eq_filter, List.filter_filter]
  exact List.filter_congr (fun col _ => Bool.and_comm _ _)

/-- Claim C10: the dataframe returned by read_results_csv never contains a
column named filename or Method, and every other column of the parsed CSV is
preserved unchanged and in its original order. -/
theorem C10_read_results_csv_columns (df : DF) :
    (∀ col ∈ read_results_csv df,
      col.1 ≠ ("filename") ∧ col.1 ≠ ("Method")) ∧
    read_results_csv df = df.filter
      (fun col => !(col.1 == ("filename")) && !(col.1 == ("Method"))) := by
  refine ⟨?_, read_results_csv_eq_filter df⟩
  intro col hcol
  rw [read_results_csv_eq_filter] at hcol
  have h := (List.mem_filter.mp hcol).2
  simp only [Bool.and_eq_true, Bool.not_eq_true', beq_eq_false_iff_ne] at h
  exact h

/-- Witness for C10 at a concrete three-column dataframe. -/
theorem C10_read_results_csv_columns_witness :
    (((("A"), ([2] : List ℚ)) : String × List ℚ).1 ≠ ("filename") ∧
      ((("A"), ([2] : List ℚ)) : String × List ℚ).1 ≠ ("Method")) ∧
    read_results_csv exDF = exDF.filter
      (fun col => !(col.1 == ("filename")) && !(col.1 == ("Method"))) :=
  ⟨(C10_read_results_csv_columns exDF).1 ((("A"), [2])) (by decide),
    (C10_read_results_csv_columns exDF).2⟩
